import Mathlib

/-!
Shallow embedding of the RekhtaNavees project-persistence layer
(`rekhtanavees/audio/audioproject.py`, `rekhtanavees/audio/transcript.py`,
`rekhtanavees/misc/utils.py`, `rekhtanavees/constants.py`) together with
theorems settling the specification claims about it.

Modelling conventions:
* Python strings are `String` (helpers implemented over `List Char`);
* timestamps (`datetime`) are `Int` (only equality/ordering matters);
* segment times (Python `float`) are `ℚ` (only ordering is used);
* the filesystem is a map `String → Option FileData`, a file being either a
  parseable TOML document or unparseable bytes;
* Python `assert`/exceptions become explicit error values.
-/

/-- Whitespace characters stripped by Python `str.strip()` (ASCII subset:
space, tab, newline, carriage return, vertical tab, form feed). -/
def isPySpace (c : Char) : Bool :=
  c = ' ' || c = '\t' || c = '\n' || c = '\r' || c.toNat == 11 || c.toNat == 12

/-- Python `str.strip()` on a character list. -/
def pyStripList (cs : List Char) : List Char :=
  ((cs.dropWhile isPySpace).reverse.dropWhile isPySpace).reverse

/-- Python `str.strip()`. -/
def pyStrip (s : String) : String :=
  String.mk (pyStripList s.data)

/-- characters of Python `string.ascii_lowercase`. -/
def asciiLowercase : List Char := "abcdefghijklmnopqrstuvwxyz".data

/-- characters of Python `string.ascii_uppercase`. -/
def asciiUppercase : List Char := "ABCDEFGHIJKLMNOPQRSTUVWXYZ".data

/-- characters of Python `string.digits`. -/
def asciiDigits : List Char := "0123456789".data

/-- `MinimumValidChars = "-_.()" + string.ascii_letters + string.digits`
(utils.py:21). -/
def MinimumValidChars : List Char :=
  "-_.()".data ++ (asciiLowercase ++ asciiUppercase) ++ asciiDigits

/-- `FilenameCharLimit = 255` (utils.py:23). -/
def FilenameCharLimit : Nat := 255

/-- One character of the class `[A-Za-z0-9 _-]` used by `isValidProjectName`. -/
def validTitleChar (c : Char) : Bool :=
  ('A' ≤ c && c ≤ 'Z') || ('a' ≤ c && c ≤ 'z') || ('0' ≤ c && c ≤ '9') ||
    c = ' ' || c = '_' || c = '-'

/-- `isValidProjectName` (utils.py:67): the stripped name is non-empty and
matches `^[A-Za-z0-9 _-]+$`. -/
def isValidProjectName (name : String) : Bool :=
  let t := pyStripList name.data
  !t.isEmpty && t.all validTitleChar

/-- `slugify` (utils.py:87) with the normalization step as a parameter: the
space characters (default `replace=' '`) are replaced by hyphens, the string
is normalized to ASCII, non-whitelisted characters are dropped and the result
is truncated to `FilenameCharLimit` characters. -/
def slugifyWith (normalize : List Char → List Char) (name : String) : String :=
  let n1 := name.data.map (fun c => if c = ' ' then '-' else c)
  let slug := normalize n1
  let slug := slug.filter (fun c => MinimumValidChars.contains c)
  String.mk (slug.take FilenameCharLimit)

/-- the `unicodedata.normalize('NFKD', name).encode('ASCII', 'ignore')` step of
`slugify` (utils.py:110), modelled as dropping non-ASCII characters (it is the
identity on ASCII input; no claim depends on how non-ASCII characters
decompose). -/
def nfkdAscii (cs : List Char) : List Char :=
  cs.filter (fun c => c.toNat < 128)

/-- `slugify` with its default arguments (utils.py:87). -/
def slugify (name : String) : String :=
  slugifyWith nfkdAscii name

/-- `str(Rx.ApplicationVersion)`: `RVersion.__str__` renders only
`major.minor` (constants.py:105), and `ApplicationVersion` is
`RVersion(0, 1, 0, 'Alpha')` (constants.py:123). -/
def applicationVersionString : String := "0.1"

/-- `Recording` (audioproject.py:59): one recordings entry, paths kept as
strings (pydantic's file-existence validation is a filesystem concern outside
the persistence logic the claims are about). -/
structure Recording where
  audioFile : String
  transcriptFile : String
deriving Repr, DecidableEq

/-- In-memory state of `AudioProject` (audioproject.py:185): exactly the
attributes assigned in `__init__`. -/
structure AudioProject where
  title : String
  projectFolder : String
  originator : String
  email : String
  narrative : String
  createdOn : Int
  lastSavedOn : Int
  recordings : List Recording
  isModified : Bool
deriving Repr, DecidableEq

/-- `AudioProject.name` setter (audioproject.py:204): strips the value, keeps
it only when non-empty, lexically valid, and different from the current title,
in which case the modified flag is raised. -/
def setName (p : AudioProject) (title : String) : AudioProject :=
  let title := pyStrip title
  if title ≠ "" && isValidProjectName title && p.title ≠ title then
    { p with title := title, isModified := true }
  else p

/-- `AudioProject.authorName` setter (audioproject.py:232): strips the value,
keeps it only when non-empty and different from the current one. -/
def setAuthorName (p : AudioProject) (author : String) : AudioProject :=
  let author := pyStrip author
  if author ≠ "" && author ≠ p.originator then
    { p with originator := author, isModified := true }
  else p

/-- `AudioProject.authorEmail` setter (audioproject.py:247): strips the value,
keeps it only when non-empty and different from the current one. -/
def setAuthorEmail (p : AudioProject) (authorEmail : String) : AudioProject :=
  let authorEmail := pyStrip authorEmail
  if authorEmail ≠ "" && authorEmail ≠ p.email then
    { p with email := authorEmail, isModified := true }
  else p

/-- `AudioProject.description` setter (audioproject.py:268): strips the value
and stores it whenever it differs from the current one (no validity check). -/
def setDescription (p : AudioProject) (description : String) : AudioProject :=
  let description := pyStrip description
  if description ≠ p.narrative then
    { p with narrative := description, isModified := true }
  else p

/-- `AudioProject.projectFilename` (audioproject.py:283): empty when the title
is empty, otherwise `projectFolder/slugify(title).toml` (path resolution is
modelled as plain string concatenation). -/
def projectFilename (p : AudioProject) : String :=
  if p.title ≠ "" then p.projectFolder ++ "/" ++ slugify p.title ++ ".toml"
  else ""

/-- One entry of the on-disk `recordings` array-of-tables: the two keys this
layer owns, plus the remaining key-value pairs of the table (e.g. a hand-added
`videoFile`), which in-place `update` preserves. -/
structure RecEntry where
  audioFile : Option String
  transcriptFile : Option String
  extra : List (String × String)
deriving Repr, DecidableEq

/-- The on-disk `general` table, with the keys this layer reads and writes;
absent keys are `none`. -/
structure General where
  authorName : Option String
  authorEmail : Option String
  description : Option String
  createdOn : Option Int
  lastSavedOn : Option Int
deriving Repr, DecidableEq

/-- A parsed project TOML document: the top-level `RekhtaNaveesVersion` key,
the `general` table and the `recordings` array-of-tables; absent keys are
`none`. -/
structure TomlDoc where
  version : Option String
  general : Option General
  recordings : Option (List RecEntry)
deriving Repr, DecidableEq

/-- Contents of a file on disk: either a parseable TOML document or
unparseable bytes (on which `tomlkit` raises `TOMLKitError`). -/
inductive FileData where
  | toml (d : TomlDoc)
  | corrupt (bytes : String)
deriving Repr, DecidableEq

/-- The filesystem: a map from path to file contents. -/
def FS : Type := String → Option FileData

/-- The empty filesystem. -/
def FS.empty : FS := fun _ => none

/-- Write (`some v`) or remove (`none`) the file at path `q`. -/
def FS.set (fs : FS) (q : String) (v : Option FileData) : FS :=
  fun x => if x = q then v else fs x

/-- Serialize-then-reparse normal form of a document, as produced by
`tomlkit.dumps` followed by a reload: TOML has no syntax for an empty
array-of-tables, so an empty `recordings` array emits no text and the key is
absent after reparsing; everything else round-trips unchanged (confirmed by
`test_ProjectSaveModifiedRecordings`, which expects `recordings not in doc`
after saving with zero recordings). -/
def dumpReload (d : TomlDoc) : TomlDoc :=
  { d with recordings := match d.recordings with
      | some [] => none
      | x => x }

/-- New on-disk entry for an in-memory recording, as built on the render and
append paths (audioproject.py:402, 441): a fresh table with exactly the two
path keys. -/
def newRecEntry (rec : Recording) : RecEntry :=
  { audioFile := some rec.audioFile,
    transcriptFile := some rec.transcriptFile,
    extra := [] }

/-- In-place `recordings[i].update({...})` (audioproject.py:435): overwrite the
two path keys of an existing entry, leaving its other keys untouched. -/
def updEntry (e : RecEntry) (rec : Recording) : RecEntry :=
  { audioFile := some rec.audioFile,
    transcriptFile := some rec.transcriptFile,
    extra := e.extra }

/-- The recordings patch loop of `updateProjectToToml`
(audioproject.py:430-447): with `R` in-memory and `r` on-disk entries, the
first `min(R, r)` on-disk entries are updated in place; if `R > r` the extra
in-memory recordings are appended as fresh tables, otherwise
`del recordings[R:]` truncates the array to length `R`. -/
def updateRecordingsList (mem : List Recording) (rcs : List RecEntry) :
    List RecEntry :=
  let R := mem.length
  let r := rcs.length
  let k := if R > r then r else R
  let toUpdate := mem.take k
  let updated := (List.zipWith updEntry (rcs.take k) toUpdate) ++ rcs.drop k
  if R > r then updated ++ (mem.drop r).map newRecEntry
  else updated.take R

/-- The `general` table written by both save paths
(audioproject.py:388-395, 418-427): author name and email, the description
key present only when the narrative is non-empty (`pop`ped otherwise on the
update path, never added on the render path), and the in-memory timestamps.
Note that `lastSavedOn` is the in-memory value: the `# update last saved time`
line (audioproject.py:334) is an annotated statement, not an assignment, so it
stores nothing (see `saveProject`). -/
def generalOfProject (p : AudioProject) : General :=
  { authorName := some p.originator,
    authorEmail := some p.email,
    description := if p.narrative ≠ "" then some p.narrative else none,
    createdOn := some p.createdOn,
    lastSavedOn := some p.lastSavedOn }

/-- `AudioProject.renderProjectToToml` (audioproject.py:372): fails
(`AssertionError`) when the author name or email is empty, otherwise builds a
fresh document with the version tag, the `general` table and a `recordings`
array for the in-memory list. The title is not written anywhere. -/
def renderProjectToToml (p : AudioProject) : Except String TomlDoc :=
  if p.originator = "" then .error "Author not provided"
  else if p.email = "" then .error "Author email not provided"
  else .ok
    { version := some applicationVersionString,
      general := some (generalOfProject p),
      recordings := some (p.recordings.map newRecEntry) }

/-- `AudioProject.updateProjectToToml` (audioproject.py:413): patches an
existing parsed document in place. When the document has no `general` table
the source crashes with a `NameError` (audioproject.py:417 references the
undefined name `toml`), modelled as an error; otherwise empty author name or
email fail the asserts, and on success the version tag, `general` table and
`recordings` array are rewritten as in the source. -/
def updateProjectToToml (p : AudioProject) (tdoc : TomlDoc) :
    Except String TomlDoc :=
  match tdoc.general with
  | none => .error "NameError: name toml is not defined"
  | some _ =>
    if p.originator = "" then .error "Author not provided"
    else if p.email = "" then .error "Author email not provided"
    else .ok
      { version := some applicationVersionString,
        general := some (generalOfProject p),
        recordings :=
          some (updateRecordingsList p.recordings (tdoc.recordings.getD [])) }

/-- The recordings loop of `renderTomlToProject` (audioproject.py:362-369):
entries are validated in order and APPENDED to the existing in-memory list
(`self.recordings.append`, audioproject.py:369 — the list is never cleared);
a missing key aborts with the already-processed entries still appended. -/
def loadRecordingsLoop (p : AudioProject) (i : Nat) :
    List RecEntry → AudioProject × Option String
  | [] => (p, none)
  | e :: rest =>
    match e.audioFile with
    | none => (p, some ("audioFile key is absent in recording #" ++ toString i))
    | some a =>
      match e.transcriptFile with
      | none =>
        (p, some ("transcriptFile key is absent in recording #" ++ toString i))
      | some tr =>
        loadRecordingsLoop
          { p with recordings := p.recordings ++ [{ audioFile := a, transcriptFile := tr }] }
          (i + 1) rest

/-- `AudioProject.renderTomlToProject` (audioproject.py:342): asserts the
version tag is present and equal to the application version, then requires the
`general` table with author name and email, copies the optional description
and timestamps, and appends the recordings. Returns the (possibly partially
mutated) state together with the error, if any; the version checks precede
every mutation. The title is never read from the document. -/
def renderTomlToProject (p : AudioProject) (tdoc : TomlDoc) :
    AudioProject × Option String :=
  match tdoc.version with
  | none => (p, some "RekhtaNaveesVersion key is absent")
  | some v =>
    if v ≠ applicationVersionString then
      (p, some ("RekhtaNaveesVersion mismatch Application v" ++
        applicationVersionString ++ " vs Project v" ++ v))
    else
      match tdoc.general with
      | none => (p, some "general table is absent")
      | some g =>
        match g.authorName with
        | none => (p, some "authorName key is absent")
        | some an =>
          let p1 := { p with originator := an }
          match g.authorEmail with
          | none => (p1, some "authorEmail key is absent")
          | some ae =>
            let p2 := { p1 with email := ae }
            let p3 := match g.description with
              | some d => { p2 with narrative := d }
              | none => p2
            let p4 := match g.createdOn with
              | some c => { p3 with createdOn := c }
              | none => p3
            let p5 := match g.lastSavedOn with
              | some l => { p4 with lastSavedOn := l }
              | none => p4
            match tdoc.recordings with
            | none => (p5, none)
            | some entries => loadRecordingsLoop p5 0 entries

/-- `AudioProject.loadProject` (audioproject.py:297): fails when the project
file does not exist, fails when its bytes do not parse, otherwise runs
`renderTomlToProject` (whose assertion failures surface as the error of the
returned pair). -/
def loadProject (p : AudioProject) (fs : FS) : AudioProject × Option String :=
  let path := projectFilename p
  if path = "" then
    (p, some ("Loading non-existent project file " ++ path))
  else
    match fs path with
    | none => (p, some ("Loading non-existent project file " ++ path))
    | some (.corrupt _) => (p, some ("TOMLKitError in " ++ path))
    | some (.toml tdoc) => renderTomlToProject p tdoc

/-- The terminal write of `saveProject` (audioproject.py:335-339):
`projectFilePath.open(mode='wb+')` followed by writing the dumped document.
When the project filename is empty (empty title), `Path('')` denotes the
current directory and opening it for writing raises `IsADirectoryError`
(which is not a `TOMLKitError`, so the `except` clause at audioproject.py:338
does not catch it and the save fails without writing); a write to any other
path is modelled as succeeding. -/
def writeProjectFile (fs : FS) (path : String) (d : TomlDoc) :
    Option String × FS :=
  if path = "" then (some "IsADirectoryError: [Errno 21] Is a directory", fs)
  else (none, fs.set path (some (.toml (dumpReload d))))

/-- The render path of `saveProject` followed by the terminal write: on render
failure (`AssertionError`) nothing is written. -/
def saveRender (p : AudioProject) (fs : FS) (path : String) :
    Option String × FS :=
  match renderProjectToToml p with
  | .error e => (some e, fs)
  | .ok d => writeProjectFile fs path d

/-- `AudioProject.saveProject` (audioproject.py:315): render path when the
project file does not exist; update path when it exists and parses; when it
exists but fails to parse, the corrupt file is renamed to `<name>.<ext>.bak`
(any previous backup of that name removed first) and the render path is taken.
The `now` argument is the clock value of the `datetime.now(tz=timezone.utc)`
at audioproject.py:334; that line is an annotated statement
(`tdoc['general']['lastSavedOn']: ...`), not an assignment, so it stores
nothing into the document and `now` is discarded. Returns the error (if any)
together with the resulting filesystem, since the corrupt-file rename happens
before render-path validation can still fail. -/
def saveProject (now : Int) (p : AudioProject) (fs : FS) :
    Option String × FS :=
  let _clockValueDiscarded := now
  let path := projectFilename p
  if path = "" then saveRender p fs path
  else
    match fs path with
    | none => saveRender p fs path
    | some (.toml tdoc) =>
      match updateProjectToToml p tdoc with
      | .error e => (some e, fs)
      | .ok d => writeProjectFile fs path d
    | some (.corrupt b) =>
      saveRender p
        ((fs.set (path ++ ".bak") (some (.corrupt b))).set path none) path

/-- `Segment` (transcript.py:29), restricted to the fields the lookup reads:
start and end times in seconds (Python floats, modelled as rationals — only
their ordering is used). -/
structure Segment where
  start : ℚ
  stop : ℚ
deriving Repr, DecidableEq

/-- `Segment.__contains__` (transcript.py:43): `start <= t <= end`. -/
def Segment.containsTime (s : Segment) (t : ℚ) : Bool :=
  decide (s.start ≤ t ∧ t ≤ s.stop)

/-- Default segment used for (provably unreachable) out-of-range indexing. -/
def segDefault : Segment := { start := 0, stop := 0 }

/-- The `while low <= high` loop of `findSegment` (transcript.py:63-73), with
an explicit fuel argument as termination measure; `mid = (low + high) // 2` is
Python floor division, i.e. `Int.fdiv`. Every call from `findSegment` keeps
`0 ≤ low`, `high < len` and fuel at least `high + 1 - low`, so the fuel never
runs out and the index is in range. -/
def findSegmentAux (segments : List Segment) (targetTime : ℚ) :
    Nat → Int → Int → Int
  | 0, _, _ => -1
  | fuel + 1, low, high =>
    if low ≤ high then
      let mid := (low + high).fdiv 2
      let s := segments.getD mid.toNat segDefault
      if s.containsTime targetTime then mid
      else if s.stop < targetTime then
        findSegmentAux segments targetTime fuel (mid + 1) high
      else
        findSegmentAux segments targetTime fuel low (mid - 1)
    else -1

/-- `findSegment` (transcript.py:49): binary search over the segment list,
returning the index of a segment containing `targetTime`, else `-1`. -/
def findSegment (segments : List Segment) (targetTime : ℚ) : Int :=
  findSegmentAux segments targetTime (segments.length + 1) 0
    ((segments.length : Int) - 1)

/-- Segments listed in non-decreasing order of start time (the ordering named
by the claim). -/
def SortedByStart (segments : List Segment) : Prop :=
  ∀ i, i < segments.length → ∀ j, j < segments.length → i < j →
    (segments.getD i segDefault).start ≤ (segments.getD j segDefault).start

/-- Every segment is well-formed: start time at most end time. -/
def WellFormedSegments (segments : List Segment) : Prop :=
  ∀ i, i < segments.length →
    (segments.getD i segDefault).start ≤ (segments.getD i segDefault).stop

/-- Segments are strictly separated: each segment ends strictly before any
later segment starts. -/
def SeparatedSegments (segments : List Segment) : Prop :=
  ∀ i, i < segments.length → ∀ j, j < segments.length → i < j →
    (segments.getD i segDefault).stop < (segments.getD j segDefault).start

instance (segments : List Segment) : Decidable (SortedByStart segments) := by
  unfold SortedByStart; infer_instance

instance (segments : List Segment) : Decidable (WellFormedSegments segments) := by
  unfold WellFormedSegments; infer_instance

instance (segments : List Segment) : Decidable (SeparatedSegments segments) := by
  unfold SeparatedSegments; infer_instance

/-- Did an `Except`-valued save-path step succeed. -/
def isOkE (e : Except String TomlDoc) : Bool :=
  match e with
  | .ok _ => true
  | .error _ => false

/-- Document produced by an `Except`-valued save-path step (empty document on
error). -/
def docOfE (e : Except String TomlDoc) : TomlDoc :=
  match e with
  | .ok d => d
  | .error _ => { version := none, general := none, recordings := none }

/-- On-disk recordings array of a produced document (empty on error/absence). -/
def updRecordings (e : Except String TomlDoc) : List RecEntry :=
  (docOfE e).recordings.getD []

/-- The two path keys of an on-disk recordings entry. -/
def entryContent (e : RecEntry) : Option String × Option String :=
  (e.audioFile, e.transcriptFile)

/-- The on-disk shape of an in-memory recording's path keys. -/
def recContent (r : Recording) : Option String × Option String :=
  (some r.audioFile, some r.transcriptFile)

/-- `lastSavedOn` of the `general` table of a file on disk, when present. -/
def fileLastSavedOn (f : Option FileData) : Option Int :=
  match f with
  | some (.toml d) =>
    match d.general with
    | some g => g.lastSavedOn
    | none => none
  | _ => none

/-- `createdOn` of the `general` table of a file on disk, when present. -/
def fileCreatedOn (f : Option FileData) : Option Int :=
  match f with
  | some (.toml d) =>
    match d.general with
    | some g => g.createdOn
    | none => none
  | _ => none

/-- A valid in-memory project with one recording, used as concrete input. -/
def proj1 : AudioProject :=
  { title := "ab", projectFolder := "f", originator := "A", email := "a@b",
    narrative := "d", createdOn := 5, lastSavedOn := 7,
    recordings := [{ audioFile := "r.flac", transcriptFile := "r.txt" }],
    isModified := true }

/-- A project whose title is empty but whose author fields are populated. -/
def projEmptyTitle : AudioProject :=
  { title := "", projectFolder := "f", originator := "A", email := "a@b",
    narrative := "", createdOn := 0, lastSavedOn := 0,
    recordings := [], isModified := false }

/-- A project with an empty author name (and otherwise valid fields). -/
def projNoAuthor : AudioProject :=
  { title := "ab", projectFolder := "f", originator := "", email := "a@b",
    narrative := "", createdOn := 0, lastSavedOn := 0,
    recordings := [], isModified := false }

/-- A filesystem holding unparseable bytes at `projNoAuthor`'s project path. -/
def fsCorruptNoAuthor : FS :=
  FS.set FS.empty (projectFilename projNoAuthor) (some (.corrupt "not toml"))

/-- A filesystem holding unparseable bytes at `proj1`'s project path. -/
def fsCorrupt1 : FS :=
  FS.set FS.empty (projectFilename proj1) (some (.corrupt "xx"))

/-- An on-disk document with a `general` table and two recordings entries, the
first of which carries an extra `videoFile` key. -/
def tdocTwo : TomlDoc :=
  { version := some "0.0",
    general := some
      { authorName := some "old", authorEmail := some "o@o",
        description := some "x", createdOn := some 1, lastSavedOn := some 2 },
    recordings := some
      [{ audioFile := some "d1.flac", transcriptFile := some "d1.txt",
         extra := [("videoFile", "d1.mp4")] },
       { audioFile := some "d2.flac", transcriptFile := some "d2.txt",
         extra := [] }] }

/-- A document carrying a version tag different from the application's. -/
def tdocBadVersion : TomlDoc :=
  { version := some "0.2",
    general := some
      { authorName := some "old", authorEmail := some "o@o",
        description := none, createdOn := none, lastSavedOn := none },
    recordings := none }

/-- Segments sorted by non-decreasing start time whose end times are not
monotone: segment 0 contains t = 9 but the binary search misses it. -/
def segsBad : List Segment := [⟨0, 10⟩, ⟨1, 2⟩, ⟨5, 6⟩]

/-- Well-formed, strictly separated segments. -/
def segsOk : List Segment := [⟨0, 1⟩, ⟨2, 3⟩, ⟨5, 6⟩]

theorem dropWhile_dropWhile (p : Char → Bool) (l : List Char) :
    List.dropWhile p (List.dropWhile p l) = List.dropWhile p l := by
  induction l with
  | nil => rfl
  | cons a l ih =>
    by_cases h : p a = true
    · rw [List.dropWhile_cons, if_pos h, ih]
    · rw [List.dropWhile_cons, if_neg h, List.dropWhile_cons, if_neg h]

theorem head?_dropWhile_false (p : Char → Bool) :
    ∀ (l : List Char) (a : Char), (List.dropWhile p l).head? = some a →
      p a = false := by
  intro l
  induction l with
  | nil => intro a h; simp at h
  | cons b l ih =>
    intro a h
    by_cases hb : p b = true
    · rw [List.dropWhile_cons, if_pos hb] at h; exact ih a h
    · rw [List.dropWhile_cons, if_neg hb] at h
      simp at h
      rw [← h]
      exact Bool.eq_false_iff.mpr hb

theorem getLast?_dropWhile (p : Char → Bool) :
    ∀ (l : List Char) (a : Char), (List.dropWhile p l).getLast? = some a →
      l.getLast? = some a := by
  intro l
  induction l with
  | nil => intro a h; simp at h
  | cons b l ih =>
    intro a h
    by_cases hb : p b = true
    · rw [List.dropWhile_cons, if_pos hb] at h
      have hl := ih a h
      cases l with
      | nil => simp at hl
      | cons c t => rw [List.getLast?_cons_cons]; exact hl
    · rw [List.dropWhile_cons, if_neg hb] at h; exact h

theorem dropWhile_eq_self_of_head? (p : Char → Bool) (l : List Char)
    (h : ∀ a, l.head? = some a → p a = false) :
    List.dropWhile p l = l := by
  cases l with
  | nil => rfl
  | cons b t =>
    rw [List.dropWhile_cons, if_neg]
    simp [h b rfl]

theorem pyStripList_idem (cs : List Char) :
    pyStripList (pyStripList cs) = pyStripList cs := by
  unfold pyStripList
  have h1 : List.dropWhile isPySpace
      (((cs.dropWhile isPySpace).reverse.dropWhile isPySpace).reverse) =
      ((cs.dropWhile isPySpace).reverse.dropWhile isPySpace).reverse := by
    apply dropWhile_eq_self_of_head?
    intro a ha
    rw [List.head?_reverse] at ha
    have h2 := getLast?_dropWhile isPySpace _ a ha
    rw [List.getLast?_reverse] at h2
    exact head?_dropWhile_false isPySpace _ a h2
  rw [h1, List.reverse_reverse, dropWhile_dropWhile]

theorem pyStrip_idem (s : String) : pyStrip (pyStrip s) = pyStrip s := by
  unfold pyStrip
  rw [show (String.mk (pyStripList s.data)).data = pyStripList s.data from rfl,
    pyStripList_idem]

theorem isValidProjectName_pyStrip (s : String) :
    isValidProjectName (pyStrip s) = isValidProjectName s := by
  unfold isValidProjectName pyStrip
  rw [show (String.mk (pyStripList s.data)).data = pyStripList s.data from rfl,
    pyStripList_idem]

/-- Claim C10: the output of `slugify` contains only whitelisted characters
(letters, digits and the characters of `"-_.()"`) and is at most
`FilenameCharLimit = 255` characters long, so the project filename component
derived from any title is built from this restricted character set. -/
theorem c10_slugify_whitelist (s : String) :
    ((slugify s).data.all (fun c => MinimumValidChars.contains c)) = true ∧
    (slugify s).length ≤ FilenameCharLimit := by
  unfold slugify slugifyWith
  constructor
  · rw [List.all_eq_true]
    intro c hc
    have hc2 := List.take_subset _ _ hc
    exact List.of_mem_filter hc2
  · show (List.take FilenameCharLimit _).length ≤ FilenameCharLimit
    exact List.length_take_le _ _

/-- Claim C1 (code bug): saving the valid one-recording project `proj1` and
loading it back succeeds and round-trips every scalar field, but the loaded
recordings list has TWO entries instead of one: `renderTomlToProject` appends
the loaded entries to the in-memory list without clearing it
(audioproject.py:369), so `save(); load()` duplicates the recordings sequence
instead of reproducing it. -/
theorem c1_roundTrip_duplicates_recordings :
    (saveProject 0 proj1 FS.empty).1 = none ∧
    (loadProject proj1 (saveProject 0 proj1 FS.empty).2).2 = none ∧
    (loadProject proj1 (saveProject 0 proj1 FS.empty).2).1.title = proj1.title ∧
    (loadProject proj1 (saveProject 0 proj1 FS.empty).2).1.originator
      = proj1.originator ∧
    (loadProject proj1 (saveProject 0 proj1 FS.empty).2).1.email = proj1.email ∧
    (loadProject proj1 (saveProject 0 proj1 FS.empty).2).1.narrative
      = proj1.narrative ∧
    (loadProject proj1 (saveProject 0 proj1 FS.empty).2).1.createdOn
      = proj1.createdOn ∧
    (loadProject proj1 (saveProject 0 proj1 FS.empty).2).1.lastSavedOn
      = proj1.lastSavedOn ∧
    proj1.recordings.length = 1 ∧
    (loadProject proj1 (saveProject 0 proj1 FS.empty).2).1.recordings
      = proj1.recordings ++ proj1.recordings := by
  decide

/-- Claim C5 (code bug): saving `proj1` at clock time 999 succeeds but
persists `lastSavedOn = 7`, the stale in-memory value, not the current time:
the line `tdoc['general']['lastSavedOn']: datetime.now(tz=timezone.utc)`
(audioproject.py:334) under the comment `# update last saved time` is an
annotated statement, not an assignment, so the save never stores the current
time. `createdOn` is indeed never modified. -/
theorem c5_lastSavedOn_stale :
    proj1.lastSavedOn = 7 ∧
    (saveProject 999 proj1 FS.empty).1 = none ∧
    fileLastSavedOn ((saveProject 999 proj1 FS.empty).2 (projectFilename proj1))
      = some 7 ∧
    fileCreatedOn ((saveProject 999 proj1 FS.empty).2 (projectFilename proj1))
      = some proj1.createdOn ∧
    (7 : Int) ≠ 999 := by
  decide

/-- Claim C7 (code bug): a successful load leaves the modified flag exactly as
it was — `loadProject`/`renderTomlToProject` never assign `isModified`
(audioproject.py:297-369), and `saveProject` (audioproject.py:315) never
touches the in-memory project at all — so loading into `proj1` (whose flag is
true) succeeds yet yields `isModified = true`, not the claimed false. -/
theorem c7_modified_flag_not_reset :
    proj1.isModified = true ∧
    (loadProject proj1 (saveProject 0 proj1 FS.empty).2).2 = none ∧
    (loadProject proj1 (saveProject 0 proj1 FS.empty).2).1.isModified = true := by
  decide

/-- Claim C6: loading a document whose top-level `RekhtaNaveesVersion` tag is
absent or differs (strict string equality) from the application's version
always fails with an error, and no field of the in-memory project is changed:
both version assertions (audioproject.py:343-346) precede every mutation. -/
theorem c6_version_gate (p : AudioProject) (tdoc : TomlDoc)
    (hv : tdoc.version ≠ some applicationVersionString) :
    (renderTomlToProject p tdoc).1 = p ∧
    (renderTomlToProject p tdoc).2.isSome = true := by
  cases h : tdoc.version with
  | none =>
    unfold renderTomlToProject
    rw [h]
    exact ⟨rfl, rfl⟩
  | some v =>
    have hne : v ≠ applicationVersionString := by
      intro he
      exact hv (by rw [h, he])
    simp [renderTomlToProject, h, hne]

theorem c6_version_gate_witness :
    tdocBadVersion.version ≠ some applicationVersionString ∧
    (renderTomlToProject proj1 tdocBadVersion).1 = proj1 ∧
    (renderTomlToProject proj1 tdocBadVersion).2.isSome = true :=
  ⟨by decide, c6_version_gate proj1 tdocBadVersion (by decide)⟩

/-- Claim C2, counterexample, at two concrete inputs. `projEmptyTitle` has an
empty title and valid author fields: no validation rejects it — the asserts at
audioproject.py:389 and 391 check only `originator` and `email`, so rendering
succeeds — and the save fails only at the write step with `IsADirectoryError`
on the empty filename (audioproject.py:336), an OS error, not the claimed
`ValidationError`. And `projNoAuthor` (empty author name) with a corrupt
backing file does fail validation, but the prior on-disk file is NOT left
untouched: it has already been renamed to its `.bak` (audioproject.py:330)
when the assert fires. -/
theorem c2_counterexample :
    projEmptyTitle.title = "" ∧
    isOkE (renderProjectToToml projEmptyTitle) = true ∧
    (saveProject 0 projEmptyTitle FS.empty).1
      = some "IsADirectoryError: [Errno 21] Is a directory" ∧
    projNoAuthor.originator = "" ∧
    fsCorruptNoAuthor (projectFilename projNoAuthor)
      = some (.corrupt "not toml") ∧
    (saveProject 0 projNoAuthor fsCorruptNoAuthor).1.isSome = true ∧
    (saveProject 0 projNoAuthor fsCorruptNoAuthor).2
      (projectFilename projNoAuthor) = none ∧
    (saveProject 0 projNoAuthor fsCorruptNoAuthor).2
      (projectFilename projNoAuthor ++ ".bak")
      = some (.corrupt "not toml") := by
  decide

/-- Claim C2, amended: for every project whose `authorName` or `authorEmail`
is empty, save always fails (the empty field trips an assert before the
project file is written), and if the prior on-disk file is not corrupt the
filesystem is completely untouched. An empty `title` alone is not caught by
the validation gate — rendering succeeds and that save fails only at the
write step, with an OS error on the empty filename rather than a validation
error — and a corrupt prior file is still renamed to its backup before the
validation failure. -/
theorem c2_validation_gate (now : Int) (p : AudioProject) (fs : FS)
    (h : p.originator = "" ∨ p.email = "") :
    (saveProject now p fs).1.isSome = true ∧
    ((∀ b, fs (projectFilename p) ≠ some (.corrupt b)) →
      (saveProject now p fs).2 = fs) := by
  have hrender : ∀ fs0 path, saveRender p fs0 path =
      (some (if p.originator = "" then "Author not provided"
             else "Author email not provided"), fs0) := by
    intro fs0 path
    unfold saveRender renderProjectToToml
    rcases h with h | h
    · rw [if_pos h, if_pos h]
    · by_cases ho : p.originator = ""
      · rw [if_pos ho, if_pos ho]
      · rw [if_neg ho, if_neg ho, if_pos h]
  have hupdate : ∀ tdoc, updateProjectToToml p tdoc =
      .error (match tdoc.general with
        | none => "NameError: name toml is not defined"
        | some _ => if p.originator = "" then "Author not provided"
                    else "Author email not provided") := by
    intro tdoc
    unfold updateProjectToToml
    cases tdoc.general with
    | none => rfl
    | some g =>
      rcases h with h | h
      · simp [h]
      · by_cases ho : p.originator = ""
        · simp [ho]
        · simp [ho, h]
  unfold saveProject
  by_cases hpath : projectFilename p = ""
  · rw [if_pos hpath, hrender]
    exact ⟨rfl, fun _ => rfl⟩
  · rw [if_neg hpath]
    cases hfs : fs (projectFilename p) with
    | none =>
      rw [hrender]
      exact ⟨rfl, fun _ => rfl⟩
    | some fd =>
      cases fd with
      | toml tdoc =>
        refine ⟨?_, fun _ => ?_⟩
        · show (match updateProjectToToml p tdoc with
            | Except.error e => (some e, fs)
            | Except.ok d =>
              writeProjectFile fs (projectFilename p) d).1.isSome = true
          rw [hupdate tdoc]
          rfl
        · show (match updateProjectToToml p tdoc with
            | Except.error e => (some e, fs)
            | Except.ok d =>
              writeProjectFile fs (projectFilename p) d).2 = fs
          rw [hupdate tdoc]
      | corrupt b =>
        refine ⟨?_, fun hnc => absurd rfl (hnc b)⟩
        show (saveRender p
          ((fs.set (projectFilename p ++ ".bak")
            (some (.corrupt b))).set (projectFilename p) none)
          (projectFilename p)).1.isSome = true
        rw [hrender]
        rfl

theorem c2_validation_gate_witness :
    (projNoAuthor.originator = "" ∨ projNoAuthor.email = "") ∧
    (saveProject 0 projNoAuthor FS.empty).1.isSome = true ∧
    (saveProject 0 projNoAuthor FS.empty).2 = FS.empty :=
  ⟨Or.inl rfl,
   (c2_validation_gate 0 projNoAuthor FS.empty (Or.inl rfl)).1,
   (c2_validation_gate 0 projNoAuthor FS.empty (Or.inl rfl)).2
     (fun b hb => by simp [FS.empty] at hb)⟩

theorem append_bak_ne (s : String) : s ++ ".bak" ≠ s := by
  intro h
  have hlen := congrArg String.length h
  rw [String.length_append, show (".bak" : String).length = 4 from rfl] at hlen
  omega

/-- Claim C4, counterexample: `projNoAuthor`'s backing file exists and is
syntactically invalid, yet saving raises (the render fallback still asserts a
non-empty author, audioproject.py:389), refuting "calling save never raises"
as stated for every project with a corrupt backing file. -/
theorem c4_counterexample :
    fsCorruptNoAuthor (projectFilename projNoAuthor)
      = some (.corrupt "not toml") ∧
    (saveProject 0 projNoAuthor fsCorruptNoAuthor).1.isSome = true := by
  decide

/-- Claim C4, amended: for every project with non-empty author name and email
whose backing file exists but is syntactically invalid, save never raises: the
corrupt bytes are moved to `<originalName>.<ext>.bak` (overwriting any
previous backup of that name) and the project path receives a freshly
rendered valid document reflecting the in-memory state. -/
theorem c4_corruption_selfheal (now : Int) (p : AudioProject) (fs : FS)
    (b : String) (ho : p.originator ≠ "") (he : p.email ≠ "")
    (hp : projectFilename p ≠ "")
    (hc : fs (projectFilename p) = some (.corrupt b)) :
    (saveProject now p fs).1 = none ∧
    (saveProject now p fs).2 (projectFilename p ++ ".bak")
      = some (.corrupt b) ∧
    (saveProject now p fs).2 (projectFilename p)
      = some (.toml (dumpReload (docOfE (renderProjectToToml p)))) ∧
    isOkE (renderProjectToToml p) = true := by
  have hrender : renderProjectToToml p = .ok
      { version := some applicationVersionString,
        general := some (generalOfProject p),
        recordings := some (p.recordings.map newRecEntry) } := by
    unfold renderProjectToToml
    rw [if_neg ho, if_neg he]
  unfold saveProject
  rw [if_neg hp]
  cases hfs : fs (projectFilename p) with
  | none => rw [hfs] at hc; exact absurd hc (by simp)
  | some fd =>
    cases fd with
    | toml tdoc => rw [hfs] at hc; exact absurd hc (by simp)
    | corrupt bytes =>
      rw [hfs] at hc
      have hb : bytes = b := by
        have := hc
        simp at this
        exact this
      subst hb
      have hsr : ∀ fs0, saveRender p fs0 (projectFilename p)
          = (none, fs0.set (projectFilename p) (some (.toml (dumpReload
              { version := some applicationVersionString,
                general := some (generalOfProject p),
                recordings := some (p.recordings.map newRecEntry) })))) := by
        intro fs0
        unfold saveRender
        rw [hrender]
        show writeProjectFile fs0 (projectFilename p) _ = _
        unfold writeProjectFile
        rw [if_neg hp]
      refine ⟨?_, ?_, ?_, ?_⟩
      · show (saveRender p _ (projectFilename p)).1 = none
        rw [hsr]
      · show (saveRender p
          ((fs.set (projectFilename p ++ ".bak")
            (some (.corrupt bytes))).set (projectFilename p) none)
          (projectFilename p)).2 (projectFilename p ++ ".bak")
          = some (.corrupt bytes)
        rw [hsr]
        show (FS.set _ (projectFilename p) _) (projectFilename p ++ ".bak") = _
        unfold FS.set
        rw [if_neg (append_bak_ne (projectFilename p)),
          if_neg (append_bak_ne (projectFilename p)), if_pos rfl]
      · show (saveRender p
          ((fs.set (projectFilename p ++ ".bak")
            (some (.corrupt bytes))).set (projectFilename p) none)
          (projectFilename p)).2 (projectFilename p)
          = some (.toml (dumpReload (docOfE (renderProjectToToml p))))
        rw [hsr]
        show (FS.set _ (projectFilename p) _) (projectFilename p) = _
        unfold FS.set
        rw [if_pos rfl, hrender]
        rfl
      · rw [hrender]
        rfl

theorem c4_corruption_selfheal_witness :
    (saveProject 0 proj1 fsCorrupt1).1 = none ∧
    (saveProject 0 proj1 fsCorrupt1).2 (projectFilename proj1 ++ ".bak")
      = some (.corrupt "xx") ∧
    (saveProject 0 proj1 fsCorrupt1).2 (projectFilename proj1)
      = some (.toml (dumpReload (docOfE (renderProjectToToml proj1)))) ∧
    isOkE (renderProjectToToml proj1) = true :=
  c4_corruption_selfheal 0 proj1 fsCorrupt1 "xx" (by decide) (by decide)
    (by decide) (by decide)

theorem zipWith_const_right {α β γ : Type} (f : β → γ) :
    ∀ (as : List α) (bs : List β), bs.length ≤ as.length →
      List.zipWith (fun _ b => f b) as bs = bs.map f := by
  intro as bs
  induction bs generalizing as with
  | nil => intro _; simp
  | cons b bs ih =>
    intro h
    cases as with
    | nil => simp at h
    | cons a as =>
      have h2 : bs.length ≤ as.length := by simp at h; omega
      rw [List.zipWith_cons_cons, List.map_cons, ih as h2]

theorem zipWith_const_left {α β γ : Type} (g : α → γ) :
    ∀ (as : List α) (bs : List β), as.length ≤ bs.length →
      List.zipWith (fun a _ => g a) as bs = as.map g := by
  intro as bs
  induction as generalizing bs with
  | nil => intro _; simp
  | cons a as ih =>
    intro h
    cases bs with
    | nil => simp at h
    | cons b bs =>
      have h2 : as.length ≤ bs.length := by simp at h; omega
      rw [List.zipWith_cons_cons, List.map_cons, ih bs h2]

theorem updateRecordingsList_map_content (mem : List Recording)
    (rcs : List RecEntry) :
    (updateRecordingsList mem rcs).map entryContent = mem.map recContent := by
  have hfun : (fun (x : RecEntry) (y : Recording) => entryContent (updEntry x y))
      = fun _ y => recContent y := rfl
  have hfun2 : entryContent ∘ newRecEntry = recContent := rfl
  simp only [updateRecordingsList]
  by_cases h : mem.length > rcs.length
  · rw [if_pos h, if_pos h, List.take_length, List.drop_length, List.append_nil,
      List.map_append, List.map_zipWith, List.map_map, hfun, hfun2,
      zipWith_const_right recContent rcs (mem.take rcs.length)
        (by rw [List.length_take]; omega),
      ← List.map_append, List.take_append_drop]
  · rw [if_neg h, if_neg h, List.take_length]
    have hlzip : (List.zipWith updEntry (rcs.take mem.length) mem).length
        = mem.length := by
      rw [List.length_zipWith, List.length_take]
      omega
    rw [List.take_left' hlzip, List.map_zipWith, hfun,
      zipWith_const_right recContent (rcs.take mem.length) mem
        (by rw [List.length_take]; omega)]

theorem updateRecordingsList_length (mem : List Recording)
    (rcs : List RecEntry) :
    (updateRecordingsList mem rcs).length = mem.length := by
  have h := congrArg List.length (updateRecordingsList_map_content mem rcs)
  simpa using h

theorem updateRecordingsList_take_extra (mem : List Recording)
    (rcs : List RecEntry) :
    ((updateRecordingsList mem rcs).take
        (min mem.length rcs.length)).map RecEntry.extra
      = (rcs.take (min mem.length rcs.length)).map RecEntry.extra := by
  have hfun : (fun (x : RecEntry) (y : Recording) => (updEntry x y).extra)
      = fun x _ => x.extra := rfl
  simp only [updateRecordingsList]
  by_cases h : mem.length > rcs.length
  · rw [if_pos h, if_pos h, List.take_length, List.drop_length, List.append_nil]
    have hmin : min mem.length rcs.length = rcs.length := by omega
    rw [hmin]
    have hlzip : (List.zipWith updEntry rcs (mem.take rcs.length)).length
        = rcs.length := by
      rw [List.length_zipWith, List.length_take]
      omega
    rw [List.take_left' hlzip, List.take_length, List.map_zipWith, hfun,
      zipWith_const_left RecEntry.extra rcs (mem.take rcs.length)
        (by rw [List.length_take]; omega)]
  · rw [if_neg h, if_neg h, List.take_length]
    have hmin : min mem.length rcs.length = mem.length := by omega
    rw [hmin]
    have hlzip : (List.zipWith updEntry (rcs.take mem.length) mem).length
        = mem.length := by
      rw [List.length_zipWith, List.length_take]
      omega
    rw [List.take_left' hlzip, List.take_of_length_le (le_of_eq hlzip),
      List.map_zipWith, hfun,
      zipWith_const_left RecEntry.extra (rcs.take mem.length) mem
        (by rw [List.length_take]; omega)]

/-- Claim C3: on the update path, for every in-memory list of `R` recordings
and every on-disk document with a `general` table and `r` recordings entries
(any `R`, `r`, including 0), the patch succeeds and yields an on-disk array of
exactly `R` entries whose path contents are the in-memory ones in in-memory
order; the first `min(R, r)` existing entries are overwritten in place (their
other keys preserved), extra entries are appended when `R > r`, the array is
truncated to length `R` when `R < r`, and after serialization the
`recordings` key is present iff `R ≠ 0` (an empty array emits no key). -/
theorem c3_recordings_resize (p : AudioProject) (tdoc : TomlDoc)
    (hg : tdoc.general.isSome = true) (ho : p.originator ≠ "")
    (he : p.email ≠ "") :
    isOkE (updateProjectToToml p tdoc) = true ∧
    (updRecordings (updateProjectToToml p tdoc)).length
      = p.recordings.length ∧
    (updRecordings (updateProjectToToml p tdoc)).map entryContent
      = p.recordings.map recContent ∧
    ((updRecordings (updateProjectToToml p tdoc)).take
        (min p.recordings.length (tdoc.recordings.getD []).length)).map
        RecEntry.extra
      = ((tdoc.recordings.getD []).take
        (min p.recordings.length (tdoc.recordings.getD []).length)).map
        RecEntry.extra ∧
    (dumpReload (docOfE (updateProjectToToml p tdoc))).recordings.isSome
      = !p.recordings.isEmpty ∧
    (dumpReload (docOfE (updateProjectToToml p tdoc))).recordings.getD []
      = updRecordings (updateProjectToToml p tdoc) := by
  cases hg2 : tdoc.general with
  | none => rw [hg2] at hg; simp at hg
  | some g =>
    have hupd : updateProjectToToml p tdoc = .ok
        { version := some applicationVersionString,
          general := some (generalOfProject p),
          recordings := some
            (updateRecordingsList p.recordings (tdoc.recordings.getD [])) } := by
      simp only [updateProjectToToml, hg2]
      rw [if_neg ho, if_neg he]
    have hlen := updateRecordingsList_length p.recordings (tdoc.recordings.getD [])
    refine ⟨by rw [hupd]; rfl, ?_, ?_, ?_, ?_, ?_⟩
    · rw [hupd]
      exact updateRecordingsList_length _ _
    · rw [hupd]
      exact updateRecordingsList_map_content _ _
    · rw [hupd]
      exact updateRecordingsList_take_extra _ _
    · rw [hupd]
      cases hres : updateRecordingsList p.recordings (tdoc.recordings.getD []) with
      | nil =>
        rw [hres] at hlen
        have hmem : p.recordings = [] := List.length_eq_zero.mp hlen.symm
        simp [dumpReload, docOfE, hmem]
      | cons a l =>
        rw [hres] at hlen
        have hmem : p.recordings ≠ [] := by
          intro hm
          rw [hm] at hlen
          simp at hlen
        simp [dumpReload, docOfE, List.isEmpty_iff, hmem]
    · rw [hupd]
      cases hres : updateRecordingsList p.recordings (tdoc.recordings.getD []) with
      | nil => simp [dumpReload, docOfE, updRecordings, hupd, hres]
      | cons a l => simp [dumpReload, docOfE, updRecordings, hupd, hres]

theorem c3_recordings_resize_witness :
    tdocTwo.general.isSome = true ∧
    (isOkE (updateProjectToToml proj1 tdocTwo) = true ∧
    (updRecordings (updateProjectToToml proj1 tdocTwo)).length
      = proj1.recordings.length ∧
    (updRecordings (updateProjectToToml proj1 tdocTwo)).map entryContent
      = proj1.recordings.map recContent ∧
    ((updRecordings (updateProjectToToml proj1 tdocTwo)).take
        (min proj1.recordings.length (tdocTwo.recordings.getD []).length)).map
        RecEntry.extra
      = ((tdocTwo.recordings.getD []).take
        (min proj1.recordings.length (tdocTwo.recordings.getD []).length)).map
        RecEntry.extra ∧
    (dumpReload (docOfE (updateProjectToToml proj1 tdocTwo))).recordings.isSome
      = !proj1.recordings.isEmpty ∧
    (dumpReload (docOfE (updateProjectToToml proj1 tdocTwo))).recordings.getD []
      = updRecordings (updateProjectToToml proj1 tdocTwo)) :=
  ⟨by decide,
   c3_recordings_resize proj1 tdocTwo (by decide) (by decide) (by decide)⟩

/-- Claim C9: each of the four setters stores the trimmed value or leaves the
field unchanged; a lexically invalid assignment (title failing the charset
check, author name or email blank after trimming) is silently ignored,
leaving the whole state — value and modified flag — unchanged; and assigning
a value equal to the current one leaves the whole state (including the
modified flag) unchanged. -/
theorem c9_setter_semantics (p : AudioProject) (s : String) :
    ((setName p s).title = p.title ∨ (setName p s).title = pyStrip s) ∧
    (isValidProjectName s = false → setName p s = p) ∧
    (pyStrip s = p.title → setName p s = p) ∧
    ((setAuthorName p s).originator = p.originator ∨
      (setAuthorName p s).originator = pyStrip s) ∧
    (pyStrip s = "" → setAuthorName p s = p) ∧
    (pyStrip s = p.originator → setAuthorName p s = p) ∧
    ((setAuthorEmail p s).email = p.email ∨
      (setAuthorEmail p s).email = pyStrip s) ∧
    (pyStrip s = "" → setAuthorEmail p s = p) ∧
    (pyStrip s = p.email → setAuthorEmail p s = p) ∧
    ((setDescription p s).narrative = p.narrative ∨
      (setDescription p s).narrative = pyStrip s) ∧
    (pyStrip s = p.narrative → setDescription p s = p) := by
  refine ⟨?_, ?_, ?_, ?_, ?_, ?_, ?_, ?_, ?_, ?_, ?_⟩
  · simp only [setName]
    split
    · exact Or.inr rfl
    · exact Or.inl rfl
  · intro h
    have hval : isValidProjectName (pyStrip s) = false := by
      rw [isValidProjectName_pyStrip]
      exact h
    simp only [setName]
    rw [if_neg (by simp [hval])]
  · intro h
    simp only [setName]
    rw [if_neg (by simp [h])]
  · simp only [setAuthorName]
    split
    · exact Or.inr rfl
    · exact Or.inl rfl
  · intro h
    simp only [setAuthorName]
    rw [if_neg (by simp [h])]
  · intro h
    simp only [setAuthorName]
    rw [if_neg (by simp [h])]
  · simp only [setAuthorEmail]
    split
    · exact Or.inr rfl
    · exact Or.inl rfl
  · intro h
    simp only [setAuthorEmail]
    rw [if_neg (by simp [h])]
  · intro h
    simp only [setAuthorEmail]
    rw [if_neg (by simp [h])]
  · simp only [setDescription]
    split
    · exact Or.inr rfl
    · exact Or.inl rfl
  · intro h
    simp only [setDescription]
    rw [if_neg (by simp [h])]

theorem c9_setter_semantics_witness :
    isValidProjectName "t!" = false ∧
    setName proj1 "t!" = proj1 ∧
    pyStrip "   " = "" ∧
    setAuthorName proj1 "   " = proj1 ∧
    setAuthorEmail proj1 "   " = proj1 ∧
    pyStrip " d " = proj1.narrative ∧
    setDescription proj1 " d " = proj1 :=
  ⟨by decide,
   (c9_setter_semantics proj1 "t!").2.1 (by decide),
   by decide,
   (c9_setter_semantics proj1 "   ").2.2.2.2.1 (by decide),
   (c9_setter_semantics proj1 "   ").2.2.2.2.2.2.2.1 (by decide),
   by decide,
   (c9_setter_semantics proj1 " d ").2.2.2.2.2.2.2.2.2.2 (by decide)⟩

theorem containsTime_iff (s : Segment) (t : ℚ) :
    s.containsTime t = true ↔ (s.start ≤ t ∧ t ≤ s.stop) := by
  simp [Segment.containsTime]

theorem fdiv2_bounds (low high : Int) (h : low ≤ high) :
    low ≤ (low + high).fdiv 2 ∧ (low + high).fdiv 2 ≤ high := by
  rw [Int.fdiv_eq_ediv _ (by norm_num : (0:Int) ≤ 2)]
  omega

theorem segment_lookup_unique (segments : List Segment) (t : ℚ)
    (hsep : SeparatedSegments segments) :
    ∀ i j, i < segments.length → j < segments.length →
      (segments.getD i segDefault).containsTime t = true →
      (segments.getD j segDefault).containsTime t = true → i = j := by
  intro i j hi hj hci hcj
  have h1 := (containsTime_iff _ t).mp hci
  have h2 := (containsTime_iff _ t).mp hcj
  rcases Nat.lt_trichotomy i j with hij | hij | hij
  · have hs := hsep i hi j hj hij
    linarith [h1.2, h2.1]
  · exact hij
  · have hs := hsep j hj i hi hij
    linarith [h2.2, h1.1]

theorem findSegmentAux_finds (segments : List Segment) (t : ℚ)
    (hwf : WellFormedSegments segments) (hsep : SeparatedSegments segments)
    (k : Nat) (hk : k < segments.length)
    (hck : (segments.getD k segDefault).containsTime t = true) :
    ∀ (fuel : Nat) (low high : Int), 0 ≤ low → high < segments.length →
      low ≤ k → k ≤ high → (high + 1 - low).toNat ≤ fuel →
      findSegmentAux segments t fuel low high = k := by
  intro fuel
  induction fuel with
  | zero =>
    intro low high h0 hn hlk hkh hf
    omega
  | succ fuel ih =>
    intro low high h0 hn hlk hkh hf
    have hlh : low ≤ high := le_trans hlk hkh
    simp only [findSegmentAux]
    rw [if_pos hlh]
    obtain ⟨hm1, hm2⟩ := fdiv2_bounds low high hlh
    have hmid0 : 0 ≤ (low + high).fdiv 2 := le_trans h0 hm1
    have hmidlt : ((low + high).fdiv 2).toNat < segments.length := by omega
    by_cases hcm :
        (segments.getD ((low + high).fdiv 2).toNat segDefault).containsTime t
          = true
    · rw [if_pos hcm]
      have hmk := segment_lookup_unique segments t hsep
        ((low + high).fdiv 2).toNat k hmidlt hk hcm hck
      omega
    · rw [if_neg hcm]
      by_cases hlt :
          (segments.getD ((low + high).fdiv 2).toNat segDefault).stop < t
      · rw [if_pos hlt]
        have hkgt : ((low + high).fdiv 2) < (k : Int) := by
          by_contra hle
          push_neg at hle
          rcases Nat.lt_or_ge k ((low + high).fdiv 2).toNat with hklt | hge
          · have hs := hsep k hk ((low + high).fdiv 2).toNat hmidlt hklt
            have hw := hwf ((low + high).fdiv 2).toNat hmidlt
            have h1 := (containsTime_iff _ t).mp hck
            linarith [h1.2]
          · have hkeq : k = ((low + high).fdiv 2).toNat := by omega
            rw [hkeq] at hck
            exact hcm hck
        exact ih ((low + high).fdiv 2 + 1) high (by omega) hn (by omega) hkh
          (by omega)
      · rw [if_neg hlt]
        push_neg at hlt
        have hsm : t < (segments.getD ((low + high).fdiv 2).toNat segDefault).start := by
          by_contra hge
          push_neg at hge
          exact hcm ((containsTime_iff _ t).mpr ⟨hge, hlt⟩)
        have hklt : (k : Int) < (low + high).fdiv 2 := by
          by_contra hle
          push_neg at hle
          rcases Nat.lt_or_ge ((low + high).fdiv 2).toNat k with hmk | hge
          · have hs := hsep ((low + high).fdiv 2).toNat hmidlt k hk hmk
            have h1 := (containsTime_iff _ t).mp hck
            linarith [h1.1]
          · have hkeq : ((low + high).fdiv 2).toNat = k := by omega
            rw [← hkeq] at hck
            exact hcm hck
        exact ih low ((low + high).fdiv 2 - 1) h0 (by omega) hlk (by omega)
          (by omega)

theorem findSegmentAux_notFound (segments : List Segment) (t : ℚ)
    (hnone : ∀ i, i < segments.length →
      (segments.getD i segDefault).containsTime t = false) :
    ∀ (fuel : Nat) (low high : Int), 0 ≤ low → high < segments.length →
      findSegmentAux segments t fuel low high = -1 := by
  intro fuel
  induction fuel with
  | zero => intro low high _ _; rfl
  | succ fuel ih =>
    intro low high h0 hn
    simp only [findSegmentAux]
    by_cases hlh : low ≤ high
    · rw [if_pos hlh]
      obtain ⟨hm1, hm2⟩ := fdiv2_bounds low high hlh
      have hmidlt : ((low + high).fdiv 2).toNat < segments.length := by omega
      have hcm := hnone _ hmidlt
      rw [if_neg (by rw [hcm]; simp)]
      by_cases hlt :
          (segments.getD ((low + high).fdiv 2).toNat segDefault).stop < t
      · rw [if_pos hlt]
        exact ih _ _ (by omega) hn
      · rw [if_neg hlt]
        exact ih _ _ h0 (by omega)
    · rw [if_neg hlh]

/-- Claim C8, counterexample: `segsBad` is ordered by non-decreasing start
time and its segment 0 = [0, 10] contains t = 9, yet `findSegment` returns the
not-found sentinel -1: at mid = 1 the probe [1, 2] ends before 9, so the
search discards the left half containing the match. Non-decreasing start
order alone does not make the binary search correct. -/
theorem c8_counterexample :
    SortedByStart segsBad ∧
    (segsBad.getD 0 segDefault).containsTime 9 = true ∧
    findSegment segsBad 9 = -1 := by
  refine ⟨by decide, by decide, by decide⟩

/-- Claim C8, amended: for every list of well-formed segments
(`start ≤ end`) that are strictly separated (every segment ends strictly
before any later one starts — strengthening the claimed mere non-decreasing
start order), `findSegment` returns the unique index `i` with
`segments[i].start ≤ t ≤ segments[i].end`, and returns the sentinel -1 when
no segment contains `t`. -/
theorem c8_segment_lookup (segments : List Segment) (t : ℚ)
    (hwf : WellFormedSegments segments) (hsep : SeparatedSegments segments) :
    (∀ k, k < segments.length →
      (segments.getD k segDefault).containsTime t = true →
      findSegment segments t = (k : Int)) ∧
    (∀ i j, i < segments.length → j < segments.length →
      (segments.getD i segDefault).containsTime t = true →
      (segments.getD j segDefault).containsTime t = true → i = j) ∧
    ((∀ k, k < segments.length →
      (segments.getD k segDefault).containsTime t = false) →
      findSegment segments t = -1) := by
  refine ⟨?_, segment_lookup_unique segments t hsep, ?_⟩
  · intro k hk hck
    unfold findSegment
    exact findSegmentAux_finds segments t hwf hsep k hk hck
      (segments.length + 1) 0 ((segments.length : Int) - 1)
      (by omega) (by omega) (by omega) (by omega) (by omega)
  · intro hnone
    unfold findSegment
    exact findSegmentAux_notFound segments t hnone
      (segments.length + 1) 0 ((segments.length : Int) - 1)
      (by omega) (by omega)

theorem c8_segment_lookup_witness :
    WellFormedSegments segsOk ∧ SeparatedSegments segsOk ∧
    findSegment segsOk (3 : ℚ) = (1 : Nat) := by
  refine ⟨by decide, by decide, ?_⟩
  exact (c8_segment_lookup segsOk 3 (by decide) (by decide)).1 1
    (by decide) (by decide)
